import Mathlib

/-!
Verification of the donor-opportunity RSS aggregation pipeline.

This file gives a shallow embedding of the two RSS-aggregator variants of the
repository (`donor_rss_aggregator.py`, class `ImprovedDonorRSSAggregator`, and
`rss_aggregator.py`, class `DonorRSSAggregator`) and proves properties of the
embedded definitions.

Modelling conventions:
  * Python strings are Lean `String`s; `kw in text` (substring test) is a
    contiguous-occurrence check on the underlying character lists;
    `str.lower()` lowercases character-wise (the texts involved are ASCII
    apart from punctuation, where Python and Lean agree).
  * The `re` patterns of `extract_deadline` / `extract_amount` are embedded as
    data (`Rx` terms mirroring the pattern strings, compiled case-insensitively
    as in the source, which passes `re.IGNORECASE`) and executed by a
    backtracking matcher with Python `re.search` semantics: leftmost match
    start, and at that start the first match in backtracking order, with
    greedy quantifiers and left-to-right alternation.
  * `feedparser.parse` and the network are abstracted by a `FetchOutcome`:
    either the fetch raises, or it yields a parsed feed with its `bozo` flag
    and entry list.  Entries carry the optional fields the code reads via
    `entry.get`.
  * The Python `set` of seen URLs is a duplicate-free `List String` built by
    insert-if-absent; `save_seen_urls` persists exactly that list, so the
    persisted store after a run is the final `seenUrls` of the run.
  * Scores use `ℚ`.  Python `round(x, 1)` is embedded as
    `(round (x * 10)) / 10` with `round` spelt through `Rat.floor`; every
    score the code builds is a multiple of `1/2`, so `x * 10` is an integer
    and no rounding-tie behaviour is exercised.
  * Fractional-second timestamps (`datetime.now()`) are threaded as an opaque
    `now : String` supplied to the run.
-/

/-! ## A small backtracking regex engine

`Rx` mirrors the subset of Python `re` syntax used by the source patterns:
character classes, concatenation, alternation (leftmost preference), greedy
`*`, `+`, `?` and bounded repetition. -/

inductive Rx where
  | eps : Rx
  | ch (p : Char → Bool) : Rx
  | seq (a b : Rx) : Rx
  | alt (a b : Rx) : Rx
  | star (a : Rx) : Rx

def Rx.opt (a : Rx) : Rx := .alt a .eps

def Rx.plus (a : Rx) : Rx := .seq a (.star a)

/-- Repetition exactly `n` times (Python `{n}`). -/
def Rx.repN : Nat → Rx → Rx
  | 0, _ => .eps
  | n + 1, a => .seq a (Rx.repN n a)

/-- Greedy repetition at most `n` times. -/
def Rx.upTo : Nat → Rx → Rx
  | 0, _ => .eps
  | n + 1, a => .alt (.seq a (Rx.upTo n a)) .eps

/-- Python `{m,n}`: greedy, between `m` and `n` repetitions. -/
def Rx.repRange (m n : Nat) (a : Rx) : Rx := .seq (.repN m a) (.upTo (n - m) a)

def catMap (f : α → List β) : List α → List β
  | [] => []
  | a :: t => f a ++ catMap f t

/-- One layer of the matcher, structural in the pattern; `recur` resumes a
`star` after one mandatory-progress iteration.  Results are `(consumed, rest)`
pairs in backtracking preference order (greedy quantifiers first, left
alternative first). -/
def matS (recur : Rx → List Char → List (List Char × List Char)) :
    Rx → List Char → List (List Char × List Char)
  | .eps, s => [([], s)]
  | .ch _, [] => []
  | .ch p, c :: s => if p c then [([c], s)] else []
  | .seq a b, s =>
      catMap (fun pr => (matS recur b pr.2).map (fun qr => (pr.1 ++ qr.1, qr.2)))
        (matS recur a s)
  | .alt a b, s => matS recur a s ++ matS recur b s
  | .star a, s =>
      catMap (fun pr =>
          if pr.1.isEmpty then []
          else (recur (.star a) pr.2).map (fun qr => (pr.1 ++ qr.1, qr.2)))
        (matS recur a s) ++ [([], s)]

/-- All matches of `r` at the start of `s`.  `fuel` bounds the number of
`star` iterations; every starred subpattern in this file consumes at least
one character, so `fuel = s.length + 1` is exhaustive. -/
def mat : Nat → Rx → List Char → List (List Char × List Char)
  | 0 => matS (fun _ s => [([], s)])
  | f + 1 => matS (mat f)

def matSplits (r : Rx) (s : List Char) : List (List Char × List Char) :=
  mat (s.length + 1) r s

/-- Python re.search for a pattern of shape prefix-then-group: find the leftmost
start where `pre` followed by `grp` matches, and return what the trailing
group consumed (the `match.group(1)` of the source patterns, all of which end
in their single capturing group). -/
def searchGroup (pre grp : Rx) : List Char → Option (List Char)
  | [] =>
      (catMap (fun pr => (matSplits grp pr.2).map Prod.fst) (matSplits pre [])).head?
  | c :: t =>
      match (catMap (fun pr => (matSplits grp pr.2).map Prod.fst)
               (matSplits pre (c :: t))).head? with
      | some g => some g
      | none => searchGroup pre grp t

/-- Python re.search returning the whole match (group 0). -/
def searchRx (r : Rx) : List Char → Option (List Char)
  | [] => ((matSplits r []).map Prod.fst).head?
  | c :: t =>
      match ((matSplits r (c :: t)).map Prod.fst).head? with
      | some g => some g
      | none => searchRx r t

/-- Case-insensitive literal character (the source compiles every pattern with
`re.IGNORECASE`). -/
def lit (c : Char) : Rx := .ch (fun d => d.toLower == c)

def litStr (s : String) : Rx := s.data.foldr (fun c r => .seq (lit c) r) .eps

def bigAlt : List Rx → Rx
  | [] => .eps
  | [r] => r
  | r :: t => .alt r (bigAlt t)

def isWsp (c : Char) : Bool :=
  c == ' ' || c == '\t' || c == '\n' || c == '\r' || c == '\x0b' || c == '\x0c'

/-- Python `\d`. -/
def digitRx : Rx := .ch Char.isDigit

/-- Python `[:\s]`. -/
def colsp : Rx := .ch (fun c => c == ':' || isWsp c)

/-- Python `\s`. -/
def wspRx : Rx := .ch isWsp

/-- Python character class accepting a dash or a forward slash. -/
def dashSlash : Rx := .ch (fun c => c == '-' || c == '/')

/-- Numeric date group shared by the prefixed deadline patterns:
one or two digits, dash-or-slash, one or two digits, dash-or-slash,
two to four digits. -/
def numDate : Rx :=
  .seq (Rx.repRange 1 2 digitRx)
    (.seq dashSlash
      (.seq (Rx.repRange 1 2 digitRx)
        (.seq dashSlash (Rx.repRange 2 4 digitRx))))

/-- Month-name alternation `(?:Jan(?:uary)?|...|Dec(?:ember)?)`. -/
def monthAlt : Rx :=
  bigAlt
    [ .seq (litStr "jan") (Rx.opt (litStr "uary")),
      .seq (litStr "feb") (Rx.opt (litStr "ruary")),
      .seq (litStr "mar") (Rx.opt (litStr "ch")),
      .seq (litStr "apr") (Rx.opt (litStr "il")),
      litStr "may",
      .seq (litStr "jun") (Rx.opt (litStr "e")),
      .seq (litStr "jul") (Rx.opt (litStr "y")),
      .seq (litStr "aug") (Rx.opt (litStr "ust")),
      .seq (litStr "sep") (Rx.opt (litStr "tember")),
      .seq (litStr "oct") (Rx.opt (litStr "ober")),
      .seq (litStr "nov") (Rx.opt (litStr "ember")),
      .seq (litStr "dec") (Rx.opt (litStr "ember")) ]

/-- Pattern `Month\s+\d{1,2},?\s+\d{4}`. -/
def monthDayYear : Rx :=
  .seq monthAlt
    (.seq (Rx.plus wspRx)
      (.seq (Rx.repRange 1 2 digitRx)
        (.seq (Rx.opt (lit ','))
          (.seq (Rx.plus wspRx) (Rx.repN 4 digitRx)))))

/-- Pattern `\d{1,2}\s+Month\s+\d{4}`. -/
def dayMonthYear : Rx :=
  .seq (Rx.repRange 1 2 digitRx)
    (.seq (Rx.plus wspRx)
      (.seq monthAlt (.seq (Rx.plus wspRx) (Rx.repN 4 digitRx))))

/-- Pattern `\d+(?:,\d{3})*`. -/
def numComma : Rx :=
  .seq (Rx.plus digitRx) (.star (.seq (lit ',') (Rx.repN 3 digitRx)))

/-- Pattern `(?:\s?(?:million|thousand|[KMB]))?`. -/
def amountSuffix : Rx :=
  Rx.opt (.seq (Rx.opt wspRx)
    (bigAlt [litStr "million", litStr "thousand",
             .ch (fun c => c.toLower == 'k' || c.toLower == 'm' || c.toLower == 'b')]))

/-- Pattern `\$\s?\d+(?:,\d{3})*(?:\s?(?:million|thousand|[KMB]))?`. -/
def dollarAmount : Rx :=
  .seq (lit '$') (.seq (Rx.opt wspRx) (.seq numComma amountSuffix))

/-! ## Shared data model

Feed entries as `feedparser` presents them: every field the code reads via
`entry.get(...)` is optional. -/

structure Entry where
  link : Option String
  title : Option String
  summary : Option String
  description : Option String
  published : Option String
  updated : Option String
deriving DecidableEq

/-- Outcome of `feedparser.parse` on one feed URL: either the call raises, or
it returns a parsed feed carrying its `bozo` (syntax-error) flag and entries. -/
inductive FetchOutcome where
  | raised : FetchOutcome
  | parsed (bozo : Bool) (entries : List Entry) : FetchOutcome
deriving DecidableEq

def FetchOutcome.isRaised : FetchOutcome → Bool
  | .raised => true
  | .parsed _ _ => false

/-- One source of the registry: the `feed_name` key plus the `feed_info` dict
(`type`, optional `priority`, `keywords`), with the network fetch of its URL
abstracted into `outcome`. -/
structure Feed where
  name : String
  ftype : String
  priority : Option String
  keywords : List String
  outcome : FetchOutcome
deriving DecidableEq

/-- Python `str.lower()`, character-wise (the texts involved are ASCII apart
from punctuation, where Python and Lean agree).  Defined through the
character list so that it reduces in the kernel. -/
def strLower (s : String) : String := String.mk (s.data.map Char.toLower)

/-- Substring occurrence on character lists: `p` occurs contiguously in `s`. -/
def infixAt (p : List Char) : List Char → Bool
  | [] => p.isEmpty
  | c :: t => p.isPrefixOf (c :: t) || infixAt p t

/-- Python substring test `kw in text`. -/
def isSub (kw text : String) : Bool := infixAt kw.data text.data

/-- The combined lowercase text `f"{title} {description}".lower()` built by
`parse_feed` from an entry, where `description` is
`entry.get('summary', entry.get('description', ''))`. -/
def entryFullText (e : Entry) : String :=
  strLower ((e.title.getD "") ++ " " ++ (e.summary.getD (e.description.getD "")))

/-- Insert-if-absent on the list modelling the Python `set` of seen URLs. -/
def addUrl (s : List String) (u : String) : List String :=
  if u ∈ s then s else s ++ [u]

/-! ## `ImprovedDonorRSSAggregator` (donor_rss_aggregator.py) -/

namespace ImprovedDonorRSSAggregator

/-- The `orphanage_keywords` list set in `__init__`. -/
def orphanage_keywords : List String :=
  [ "orphan", "orphanage", "children", "child welfare", "vulnerable children",
    "ovc", "child care", "childcare", "foster", "adoption", "street children",
    "child protection", "children in need", "disadvantaged children",
    "children\x27s home", "residential care", "family support" ]

/-- The `funding_keywords` list of `parse_feed`. -/
def funding_keywords : List String :=
  [ "grant", "funding", "opportunity", "proposal", "rfp",
    "call", "application", "tender", "competition", "award",
    "donation", "sponsor", "partnership", "support" ]

/-- Default sectors used when the constructor receives no (or an empty)
sector list. -/
def default_sectors : List String :=
  ["education", "health", "agriculture", "food", "children"]

/-- The ordered pattern list of `extract_deadline`, each as
(prefix, capturing-group) with the group trailing, exactly as in the source. -/
def deadline_patterns : List (Rx × Rx) :=
  [ (.seq (litStr "deadline") (Rx.plus colsp), numDate),
    (.seq (litStr "due") (Rx.plus colsp), numDate),
    (.seq (litStr "close") (.seq (Rx.opt (lit 's')) (Rx.plus colsp)), numDate),
    (.seq (litStr "application deadline") (Rx.plus colsp), numDate),
    (.seq (litStr "submit by") (Rx.plus colsp), numDate),
    (.eps, monthDayYear),
    (.eps, dayMonthYear) ]

/-- Function `extract_deadline`: try the patterns in order, return the first match's
group 1. -/
def extract_deadline (text : String) : Option String :=
  ((deadline_patterns.filterMap (fun pr => searchGroup pr.1 pr.2 text.data)).head?).map
    (fun l => String.mk l)

/-- The ordered pattern list of `extract_amount`. -/
def amount_patterns : List Rx :=
  [ .seq (bigAlt [litStr "up to", litStr "maximum", litStr "max", litStr "worth"])
      (.seq (Rx.plus wspRx) dollarAmount),
    dollarAmount,
    .seq (bigAlt [litStr "usd", litStr "eur", litStr "gbp", litStr "tzs"])
      (.seq (Rx.opt wspRx) (.seq numComma amountSuffix)),
    .seq numComma (.seq (Rx.plus wspRx)
      (bigAlt [litStr "usd", litStr "eur", litStr "gbp", litStr "tzs"])) ]

/-- Function `extract_amount`: try the patterns in order, return the first whole match. -/
def extract_amount (text : String) : Option String :=
  ((amount_patterns.filterMap (fun r => searchRx r text.data)).head?).map
    (fun l => String.mk l)

/-- The `sector_keywords` table of `classify_sectors`. -/
def sector_keywords : List (String × List String) :=
  [ ("orphan_care",
      ["orphan", "orphanage", "residential care", "children\x27s home", "foster"]),
    ("child_welfare",
      ["child welfare", "child protection", "vulnerable children", "ovc", "street children"]),
    ("education",
      ["education", "school", "learning", "training", "literacy", "student", "teacher"]),
    ("health",
      ["health", "medical", "hospital", "clinic", "healthcare", "nutrition", "disease"]),
    ("food_security",
      ["food security", "hunger", "malnutrition", "food", "feeding", "meal"]),
    ("water_sanitation",
      ["water", "sanitation", "wash", "hygiene", "toilet"]),
    ("agriculture",
      ["agriculture", "farming", "crop", "livestock", "garden"]),
    ("community_development",
      ["community", "development", "empowerment", "capacity building"]),
    ("psychosocial",
      ["counseling", "mental health", "trauma", "psychosocial", "wellbeing"]) ]

/-- Function `classify_sectors`: collect every sector one of whose keywords occurs in
the text; fall back to `["general"]` when none matched. -/
def classify_sectors (text : String) : List String :=
  let s := (sector_keywords.filter (fun p => p.2.any (fun kw => isSub kw text))).map Prod.fst
  if s.isEmpty then ["general"] else s

/-- The `priority_bonus` dict lookup `priority_bonus.get(p, 0)`. -/
def priority_bonus (p : String) : ℚ :=
  if p = "very_high" then 3 / 2
  else if p = "high" then 1
  else if p = "medium" then 1 / 2
  else if p = "low" then 0
  else 0

/-- Computable `min` on `ℚ` (the lattice `min` does not reduce in the
kernel); proven equal to `min` below. -/
def minQ (x y : ℚ) : ℚ := if x ≤ y then x else y

/-- Python `round(x, 1)`, i.e. `round (x * 10) / 10` with `round` expressed
through `Rat.floor` so that it evaluates in the kernel.  Every score the code
builds is a multiple of `1/2`, so `x * 10` is an integer and the half-way
tie-breaking rule (where Python rounds to even) is never exercised. -/
def round1 (x : ℚ) : ℚ := ((Rat.floor (x * 10 + 1 / 2) : ℤ) : ℚ) / 10

/-- Function `calculate_relevance(self, text, feed_info)`: the additive score of the
improved variant, rounded to one decimal and capped at 10. -/
def calculate_relevance (country : String) (sectors : List String)
    (text : String) (f : Feed) : ℚ :=
  let orphanage_matches := orphanage_keywords.countP (fun kw => isSub kw text = true)
  let orphScore : ℚ :=
    if orphanage_matches ≥ 3 then 5
    else if orphanage_matches ≥ 2 then 4
    else if orphanage_matches ≥ 1 then 3
    else 0
  let geoScore : ℚ :=
    if isSub country text then 2
    else if isSub "east africa" text then 3 / 2
    else if isSub "africa" text then 1
    else 0
  let sector_matches := sectors.countP (fun s => isSub s text = true)
  let sectorScore : ℚ := minQ ((sector_matches : ℚ) * (1 / 2)) 2
  let prioScore : ℚ := priority_bonus (f.priority.getD "medium")
  let urgencyScore : ℚ :=
    if ["deadline", "closing soon", "urgent", "apply now", "limited time"].any
        (fun w => isSub w text) then 1 else 0
  minQ (round1 (orphScore + geoScore + sectorScore + prioScore + urgencyScore)) 10

/-- One Opportunity Record as appended to `self.opportunities`. -/
structure Opp where
  source : String
  source_type : String
  priority : String
  title : String
  description : String
  url : String
  published : String
  deadline : Option String
  amount : Option String
  sectors : List String
  relevance_score : ℚ
  orphanage_specific : Bool
  discovered : String
  is_new : Bool
deriving DecidableEq

/-- Mutable state of the aggregator object relevant to a scan: the profile
fixed by `__init__`, the accumulated opportunities and the seen-URL set.
`now` stands for the `datetime.now()` timestamp string. -/
structure Agg where
  country : String
  sectors : List String
  showAll : Bool
  opportunities : List Opp
  seenUrls : List String
  now : String
deriving DecidableEq

/-- The per-entry body of the `for entry in feed.entries[:30]` loop of
`parse_feed`: dedup check, relevance signals, three-path inclusion decision,
record construction and seen-set update.  Returns the new state and whether
the entry was appended (`count += 1`). -/
def process_entry (st : Agg) (f : Feed) (e : Entry) : Agg × Bool :=
  let entry_url := e.link.getD ""
  if st.showAll = false ∧ entry_url ∈ st.seenUrls then (st, false)
  else
    let title := e.title.getD ""
    let description := e.summary.getD (e.description.getD "")
    let published := e.published.getD (e.updated.getD "")
    let full_text := strLower (title ++ " " ++ description)
    let has_orphanage_keyword := orphanage_keywords.any (fun kw => isSub kw full_text)
    let geo_relevant := f.keywords.any (fun kw => isSub kw full_text)
    let sector_relevant := st.sectors.any (fun s => isSub s full_text)
    let has_funding_keyword := funding_keywords.any (fun kw => isSub kw full_text)
    let relevance := calculate_relevance st.country st.sectors full_text f
    let incl := (has_orphanage_keyword && has_funding_keyword)
      || (geo_relevant && sector_relevant && has_funding_keyword)
      || (decide ((6 : ℚ) ≤ relevance) && has_funding_keyword)
    if incl then
      ({ st with
          opportunities := st.opportunities ++
            [{ source := f.name
               source_type := f.ftype
               priority := f.priority.getD "medium"
               title := title
               description := String.mk (description.data.take 600)
               url := entry_url
               published := published
               deadline := extract_deadline full_text
               amount := extract_amount full_text
               sectors := classify_sectors full_text
               relevance_score := relevance
               orphanage_specific := has_orphanage_keyword
               discovered := st.now
               is_new := decide (entry_url ∉ st.seenUrls) }]
          seenUrls := addUrl st.seenUrls entry_url }, true)
    else (st, false)

/-- Function `parse_feed`: a raised fetch or a `bozo` feed or an empty feed contributes
nothing; otherwise the first 30 entries are processed in feed order.  The
returned number is the `count` of appended records. -/
def parse_feed (st : Agg) (f : Feed) : Agg × Nat :=
  match f.outcome with
  | .raised => (st, 0)
  | .parsed bozo entries =>
    if bozo then (st, 0)
    else if entries.isEmpty then (st, 0)
    else
      (entries.take 30).foldl
        (fun acc e =>
          let r := process_entry acc.1 f e
          (r.1, if r.2 then acc.2 + 1 else acc.2))
        (st, 0)

/-- Fold of `parse_feed` over an ordered source list (the inner loops of
`scan_all_feeds`; the printed `total_found` tally is the discarded `.2`). -/
def scan_list (st : Agg) (feeds : List Feed) : Agg :=
  feeds.foldl (fun s f => (parse_feed s f).1) st

/-- Function `scan_all_feeds`: sources are grouped by priority tier and scanned
very_high, then high, then medium (a source with any other tier is never
scanned by this function). -/
def scan_all_feeds (st : Agg) (feeds : List Feed) : Agg :=
  let very_high := feeds.filter (fun f => f.priority = some "very_high")
  let high := feeds.filter (fun f => f.priority = some "high")
  let medium := feeds.filter (fun f => f.priority = some "medium")
  scan_list st (very_high ++ high ++ medium)

/-- One full scan run: `__init__` (lowercasing the profile, loading the
persisted seen store unless `show_all`), `scan_all_feeds`, and the final
`save_seen_urls` persisting `seenUrls`.  `persisted` is the content of
`seen_opportunities.json` before the run; the store after the run is the
`seenUrls` of the returned state. -/
def runScan (show_all : Bool) (persisted : List String) (now country : String)
    (sectorsIn : List String) (feeds : List Feed) : Agg :=
  let sectors := (if sectorsIn.isEmpty then default_sectors else sectorsIn).map strLower
  scan_all_feeds
    { country := strLower country
      sectors := sectors
      showAll := show_all
      opportunities := []
      seenUrls := if show_all then [] else persisted
      now := now }
    feeds

end ImprovedDonorRSSAggregator

/-! ## `DonorRSSAggregator` (rss_aggregator.py), the earlier variant -/

namespace DonorRSSAggregator

/-- The `funding_keywords` list of this variant's `parse_feed`. -/
def funding_keywords : List String :=
  [ "grant", "funding", "opportunity", "proposal", "rfp",
    "call", "application", "tender", "competition" ]

/-- Default sectors used when the constructor receives no (or an empty)
sector list. -/
def default_sectors : List String := ["education", "health", "agriculture", "food"]

/-- The ordered pattern list of this variant's `extract_deadline`. -/
def deadline_patterns : List (Rx × Rx) :=
  [ (.seq (litStr "deadline") (Rx.plus colsp), numDate),
    (.seq (litStr "due") (Rx.plus colsp), numDate),
    (.seq (litStr "close") (.seq (Rx.opt (lit 's')) (Rx.plus colsp)), numDate),
    (.eps, monthDayYear) ]

/-- This variant's `extract_deadline`. -/
def extract_deadline (text : String) : Option String :=
  ((deadline_patterns.filterMap (fun pr => searchGroup pr.1 pr.2 text.data)).head?).map
    (fun l => String.mk l)

/-- The ordered pattern list of this variant's `extract_amount`
(no `up to`-style prefix pattern and no `TZS`). -/
def amount_patterns : List Rx :=
  [ dollarAmount,
    .seq (bigAlt [litStr "usd", litStr "eur", litStr "gbp"])
      (.seq (Rx.opt wspRx) (.seq numComma amountSuffix)) ]

/-- This variant's `extract_amount`. -/
def extract_amount (text : String) : Option String :=
  ((amount_patterns.filterMap (fun r => searchRx r text.data)).head?).map
    (fun l => String.mk l)

/-- The `sector_keywords` table of this variant's `classify_sectors`. -/
def sector_keywords : List (String × List String) :=
  [ ("education",
      ["education", "school", "learning", "training", "literacy", "student", "teacher"]),
    ("health",
      ["health", "medical", "hospital", "clinic", "healthcare", "nutrition", "disease"]),
    ("water",
      ["water", "sanitation", "wash", "hygiene"]),
    ("agriculture",
      ["agriculture", "farming", "crop", "livestock", "agricu", "farmer", "harvest"]),
    ("food_security",
      ["food security", "hunger", "malnutrition", "food system", "food aid"]),
    ("governance",
      ["governance", "democracy", "rights", "justice", "policy"]),
    ("climate",
      ["climate", "environment", "sustainability", "renewable"]) ]

/-- This variant's `classify_sectors`. -/
def classify_sectors (text : String) : List String :=
  let s := (sector_keywords.filter (fun p => p.2.any (fun kw => isSub kw text))).map Prod.fst
  if s.isEmpty then ["general"] else s

/-- This variant's `calculate_relevance(self, text)`: integer additive score,
geography tier plus 2 per matched profile sector plus urgency bonus, capped
at 10 (written with `if _ ≤ _` so it reduces in the kernel; equal to
`min score 10` by `Nat.min_def`). -/
def calculate_relevance (country : String) (sectors : List String) (text : String) : ℕ :=
  let geoScore : ℕ :=
    if isSub country text then 4
    else if isSub "east africa" text then 3
    else if isSub "africa" text then 1
    else 0
  let sectorScore : ℕ := 2 * sectors.countP (fun s => isSub s text = true)
  let urgencyScore : ℕ :=
    if ["deadline", "closing", "urgent", "apply now"].any (fun w => isSub w text) then 1
    else 0
  let score := geoScore + sectorScore + urgencyScore
  if score ≤ 10 then score else 10

/-- One opportunity dict of this variant. -/
structure Opp where
  source : String
  source_type : String
  title : String
  description : String
  url : String
  published : String
  deadline : Option String
  amount : Option String
  sectors : List String
  relevance_score : ℕ
  discovered : String
  is_new : Bool
deriving DecidableEq

/-- Scan-relevant state of this variant's aggregator object. -/
structure Agg where
  country : String
  sectors : List String
  showAll : Bool
  opportunities : List Opp
  seenUrls : List String
  now : String
deriving DecidableEq

/-- The per-entry body of this variant's `for entry in feed.entries[:20]`
loop: dedup check, `(geo_relevant or sector_relevant) and
has_funding_keyword` inclusion, record construction and seen-set update. -/
def process_entry (st : Agg) (f : Feed) (e : Entry) : Agg × Bool :=
  let entry_url := e.link.getD ""
  if st.showAll = false ∧ entry_url ∈ st.seenUrls then (st, false)
  else
    let title := e.title.getD ""
    let description := e.summary.getD (e.description.getD "")
    let published := e.published.getD (e.updated.getD "")
    let full_text := strLower (title ++ " " ++ description)
    let geo_relevant := f.keywords.any (fun kw => isSub kw full_text)
    let sector_relevant := st.sectors.any (fun s => isSub s full_text)
    let has_funding_keyword := funding_keywords.any (fun kw => isSub kw full_text)
    if (geo_relevant || sector_relevant) && has_funding_keyword then
      ({ st with
          opportunities := st.opportunities ++
            [{ source := f.name
               source_type := f.ftype
               title := title
               description := String.mk (description.data.take 500)
               url := entry_url
               published := published
               deadline := extract_deadline full_text
               amount := extract_amount full_text
               sectors := classify_sectors full_text
               relevance_score := calculate_relevance st.country st.sectors full_text
               discovered := st.now
               is_new := decide (entry_url ∉ st.seenUrls) }]
          seenUrls := addUrl st.seenUrls entry_url }, true)
    else (st, false)

/-- This variant's `parse_feed`: a raised fetch or a `bozo` feed contributes
nothing; otherwise the first 20 entries are processed in feed order. -/
def parse_feed (st : Agg) (f : Feed) : Agg × Nat :=
  match f.outcome with
  | .raised => (st, 0)
  | .parsed bozo entries =>
    if bozo then (st, 0)
    else
      (entries.take 20).foldl
        (fun acc e =>
          let r := process_entry acc.1 f e
          (r.1, if r.2 then acc.2 + 1 else acc.2))
        (st, 0)

/-- Fold of `parse_feed` over the source list (the body of this variant's
`scan_all_feeds` loop; the printed `total_found` tally is the discarded
count component). -/
def scan_list (st : Agg) (feeds : List Feed) : Agg :=
  feeds.foldl (fun s f => (parse_feed s f).1) st

/-- Function `scan_all_feeds` of this variant: every source is scanned once,
in registry order (this variant has no priority grouping). -/
def scan_all_feeds (st : Agg) (feeds : List Feed) : Agg :=
  scan_list st feeds

/-- One full scan run of this variant: `__init__` (lowercasing the profile,
loading the persisted seen store unless `show_all`), `scan_all_feeds`, and
the final `save_seen_urls` persisting `seenUrls`. -/
def runScan (show_all : Bool) (persisted : List String) (now country : String)
    (sectorsIn : List String) (feeds : List Feed) : Agg :=
  let sectors := (if sectorsIn.isEmpty then default_sectors else sectorsIn).map strLower
  scan_all_feeds
    { country := strLower country
      sectors := sectors
      showAll := show_all
      opportunities := []
      seenUrls := if show_all then [] else persisted
      now := now }
    feeds

end DonorRSSAggregator

/-! ## Concrete fixtures for the counterexamples and witnesses -/

/-- First-occurrence deduplication: exactly the way the seen-URL set is built
up from the empty set by successive `addUrl` inserts. -/
def firstDedup (l : List String) : List String := l.foldl addUrl []

/-- The feed entry of the spec's concrete scenario (summary-less, so the
combined text is the lowercased title plus a trailing space). -/
def scenEntry : Entry :=
  { link := some "https://example.org/tz-edu-grant"
    title := some "Tanzania Education Grant — Apply by 12/31/2025, up to $50,000"
    summary := none, description := none, published := none, updated := none }

/-- The scenario's source: priority `high`, geographically keyed to Tanzania. -/
def scenFeed : Feed :=
  { name := "Example Donor Feed", ftype := "aggregator", priority := some "high"
    keywords := ["tanzania", "africa"], outcome := .parsed false [scenEntry] }

/-- Aggregator state for the scenario profile
`country="tanzania", sectors=["education"]`, fresh store. -/
def scenSt : ImprovedDonorRSSAggregator.Agg :=
  { country := "tanzania", sectors := ["education"], showAll := false
    opportunities := [], seenUrls := [], now := "2025-01-01 09:00" }

/-- An entry with funding language (`orphan` + `grant`) and link `"b"`. -/
def entryB : Entry :=
  { link := some "b", title := some "Orphan grant"
    summary := none, description := none, published := none, updated := none }

/-- A high-priority source yielding `entryB`. -/
def feedB : Feed :=
  { name := "Feed B", ftype := "children", priority := some "high"
    keywords := ["tanzania"], outcome := .parsed false [entryB] }

/-- The same source with the `bozo` (malformed-syntax) flag set on its
otherwise readable feed. -/
def feedBBozo : Feed :=
  { feedB with outcome := .parsed true [entryB] }

/-- An entry with funding language but no `link` field. -/
def entryNoLink : Entry :=
  { link := none, title := some "Orphan grant"
    summary := none, description := none, published := none, updated := none }

/-- An entry whose text has geographic and sector relevance but no funding
language (the spec's own exclusion example). -/
def entryNoFunding : Entry :=
  { link := some "https://example.org/curriculum"
    title := some "Tanzania launches new school curriculum"
    summary := none, description := none, published := none, updated := none }

/-- State `scenSt` with the empty URL already recorded as seen. -/
def stSeenEmpty : ImprovedDonorRSSAggregator.Agg :=
  { scenSt with seenUrls := [""] }

/-- A legacy-variant state mirroring `scenSt`. -/
def scenStV1 : DonorRSSAggregator.Agg :=
  { country := "tanzania", sectors := ["education"], showAll := false
    opportunities := [], seenUrls := [], now := "2025-01-01 09:00" }

/-! ## Helper lemmas -/

open ImprovedDonorRSSAggregator in
theorem minQ_le_right (x y : ℚ) : minQ x y ≤ y := by
  unfold minQ; split
  · assumption
  · exact le_refl y

open ImprovedDonorRSSAggregator in
theorem minQ_nonneg {x y : ℚ} (hx : 0 ≤ x) (hy : 0 ≤ y) : 0 ≤ minQ x y := by
  unfold minQ; split <;> assumption

open ImprovedDonorRSSAggregator in
theorem round1_nonneg {x : ℚ} (hx : 0 ≤ x) : 0 ≤ round1 x := by
  unfold round1
  apply div_nonneg _ (by norm_num)
  have h : (0 : ℤ) ≤ Rat.floor (x * 10 + 1 / 2) := by
    rw [Rat.le_floor]
    push_cast
    linarith
  exact_mod_cast h

theorem priority_bonus_nonneg (p : String) :
    0 ≤ ImprovedDonorRSSAggregator.priority_bonus p := by
  unfold ImprovedDonorRSSAggregator.priority_bonus
  split
  · norm_num
  · split
    · norm_num
    · split
      · norm_num
      · split <;> norm_num

theorem natCap_le_ten (n : ℕ) : (if n ≤ 10 then n else 10) ≤ 10 := by
  split
  · assumption
  · exact le_refl 10

theorem mem_addUrl_of_mem {a u : String} {s : List String} (h : a ∈ s) : a ∈ addUrl s u := by
  unfold addUrl; split
  · exact h
  · exact List.mem_append_left _ h

theorem self_mem_addUrl (u : String) (s : List String) : u ∈ addUrl s u := by
  unfold addUrl; split
  · assumption
  · exact List.mem_append_right _ (List.mem_singleton_self u)

theorem subset_addUrl (s : List String) (u : String) : s ⊆ addUrl s u :=
  fun _ h => mem_addUrl_of_mem h

theorem firstDedup_append (l : List String) (a : String) :
    firstDedup (l ++ [a]) = addUrl (firstDedup l) a := by
  unfold firstDedup
  rw [List.foldl_append]
  rfl

open ImprovedDonorRSSAggregator in
/-- Case analysis on `process_entry`: either the entry is skipped or filtered
out and the state is untouched, or it is included, in which case (when not in
show-all mode) its URL was unseen, and the state gains exactly one record
carrying that URL together with the URL itself. -/
theorem process_entry_shape (st : Agg) (f : Feed) (e : Entry) :
    process_entry st f e = (st, false) ∨
    ((st.showAll = false → (e.link.getD "") ∉ st.seenUrls) ∧
      ∃ o : Opp, o.url = e.link.getD "" ∧
        process_entry st f e =
          ({ st with
              opportunities := st.opportunities ++ [o]
              seenUrls := addUrl st.seenUrls (e.link.getD "") }, true)) := by
  simp only [process_entry]
  split
  · exact Or.inl rfl
  · next hskip =>
    split
    · refine Or.inr ⟨fun hshow hmem => hskip ⟨hshow, hmem⟩, ?_⟩
      exact ⟨_, rfl, rfl⟩
    · exact Or.inl rfl

open ImprovedDonorRSSAggregator in
/-- State invariants are preserved through the entry fold of `parse_feed`. -/
theorem parse_fold_inv (P : Agg → Prop) (f : Feed)
    (hstep : ∀ st e, P st → P (process_entry st f e).1) :
    ∀ (es : List Entry) (st : Agg) (n : ℕ), P st →
      P ((es.foldl (fun acc e =>
          let r := process_entry acc.1 f e
          (r.1, if r.2 then acc.2 + 1 else acc.2)) (st, n)).1) := by
  intro es
  induction es with
  | nil => exact fun st n h => h
  | cons e t ih => exact fun st n h => ih _ _ (hstep _ _ h)

open ImprovedDonorRSSAggregator in
theorem parse_feed_inv (P : Agg → Prop) (f : Feed)
    (hstep : ∀ st e, P st → P (process_entry st f e).1)
    (st : Agg) (h : P st) : P (parse_feed st f).1 := by
  unfold parse_feed
  split
  · exact h
  · split
    · exact h
    · split
      · exact h
      · exact parse_fold_inv P f hstep _ st 0 h

open ImprovedDonorRSSAggregator in
theorem scan_list_inv (P : Agg → Prop)
    (hstep : ∀ (f : Feed) (st : Agg) (e : Entry), P st → P (process_entry st f e).1) :
    ∀ (feeds : List Feed) (st : Agg), P st → P (scan_list st feeds) := by
  intro feeds
  induction feeds with
  | nil => exact fun st h => h
  | cons f t ih => exact fun st h => ih _ (parse_feed_inv P f (hstep f) st h)

open ImprovedDonorRSSAggregator in
theorem scan_all_feeds_inv (P : Agg → Prop)
    (hstep : ∀ (f : Feed) (st : Agg) (e : Entry), P st → P (process_entry st f e).1)
    (feeds : List Feed) (st : Agg) (h : P st) : P (scan_all_feeds st feeds) :=
  scan_list_inv P hstep _ st h

open ImprovedDonorRSSAggregator in
theorem parse_feed_raised (st : Agg) (nm ty : String) (pr : Option String)
    (kws : List String) : parse_feed st ⟨nm, ty, pr, kws, .raised⟩ = (st, 0) := rfl

open ImprovedDonorRSSAggregator in
theorem scan_list_filter_raised (feeds : List Feed) : ∀ st : Agg,
    scan_list st feeds = scan_list st (feeds.filter fun f => !f.outcome.isRaised) := by
  induction feeds with
  | nil => exact fun _ => rfl
  | cons f t ih =>
    intro st
    obtain ⟨nm, ty, pr, kws, outcome⟩ := f
    cases outcome with
    | raised =>
      have hp : (!(Feed.mk nm ty pr kws .raised).outcome.isRaised) = false := rfl
      rw [List.filter_cons_of_neg (by simp [hp])]
      show scan_list (parse_feed st ⟨nm, ty, pr, kws, .raised⟩).1 t = _
      rw [parse_feed_raised]
      exact ih st
    | parsed b es =>
      rw [List.filter_cons_of_pos rfl]
      show scan_list (parse_feed st ⟨nm, ty, pr, kws, .parsed b es⟩).1 t =
        scan_list (parse_feed st ⟨nm, ty, pr, kws, .parsed b es⟩).1
          (t.filter fun f => !f.outcome.isRaised)
      exact ih _

/-- Case analysis on the earlier variant's `process_entry`: either the state
is untouched, or the entry is included, its URL (unseen when not in show-all
mode) is appended on one new record and inserted into the seen set. -/
theorem process_entry_shape_v1 (st : DonorRSSAggregator.Agg) (f : Feed) (e : Entry) :
    DonorRSSAggregator.process_entry st f e = (st, false) ∨
    ((st.showAll = false → (e.link.getD "") ∉ st.seenUrls) ∧
      ∃ o : DonorRSSAggregator.Opp, o.url = e.link.getD "" ∧
        DonorRSSAggregator.process_entry st f e =
          ({ st with
              opportunities := st.opportunities ++ [o]
              seenUrls := addUrl st.seenUrls (e.link.getD "") }, true)) := by
  simp only [DonorRSSAggregator.process_entry]
  split
  · exact Or.inl rfl
  · next hskip =>
    split
    · refine Or.inr ⟨fun hshow hmem => hskip ⟨hshow, hmem⟩, ?_⟩
      exact ⟨_, rfl, rfl⟩
    · exact Or.inl rfl

/-- State invariants are preserved through the entry fold of the earlier
variant's `parse_feed`. -/
theorem parse_fold_inv_v1 (P : DonorRSSAggregator.Agg → Prop) (f : Feed)
    (hstep : ∀ st e, P st → P (DonorRSSAggregator.process_entry st f e).1) :
    ∀ (es : List Entry) (st : DonorRSSAggregator.Agg) (n : ℕ), P st →
      P ((es.foldl (fun acc e =>
          let r := DonorRSSAggregator.process_entry acc.1 f e
          (r.1, if r.2 then acc.2 + 1 else acc.2)) (st, n)).1) := by
  intro es
  induction es with
  | nil => exact fun st n h => h
  | cons e t ih => exact fun st n h => ih _ _ (hstep _ _ h)

theorem parse_feed_inv_v1 (P : DonorRSSAggregator.Agg → Prop) (f : Feed)
    (hstep : ∀ st e, P st → P (DonorRSSAggregator.process_entry st f e).1)
    (st : DonorRSSAggregator.Agg) (h : P st) : P (DonorRSSAggregator.parse_feed st f).1 := by
  unfold DonorRSSAggregator.parse_feed
  split
  · exact h
  · split
    · exact h
    · exact parse_fold_inv_v1 P f hstep _ st 0 h

theorem scan_list_inv_v1 (P : DonorRSSAggregator.Agg → Prop)
    (hstep : ∀ (f : Feed) (st : DonorRSSAggregator.Agg) (e : Entry),
      P st → P (DonorRSSAggregator.process_entry st f e).1) :
    ∀ (feeds : List Feed) (st : DonorRSSAggregator.Agg),
      P st → P (DonorRSSAggregator.scan_list st feeds) := by
  intro feeds
  induction feeds with
  | nil => exact fun st h => h
  | cons f t ih => exact fun st h => ih _ (parse_feed_inv_v1 P f (hstep f) st h)

theorem scan_all_feeds_inv_v1 (P : DonorRSSAggregator.Agg → Prop)
    (hstep : ∀ (f : Feed) (st : DonorRSSAggregator.Agg) (e : Entry),
      P st → P (DonorRSSAggregator.process_entry st f e).1)
    (feeds : List Feed) (st : DonorRSSAggregator.Agg) (h : P st) :
    P (DonorRSSAggregator.scan_all_feeds st feeds) :=
  scan_list_inv_v1 P hstep feeds st h

/-! ## Claims -/

/-- C6.  The relevance score is always in the interval `[0, 10]`: in the
improved variant the additive score (orphanage-keyword tier, mutually
exclusive geography tier, capped sector bonus, priority-tier bonus, urgency
bonus, all non-negative) is rounded to one decimal place and then capped at
10, and never clamped below; the earlier variant's integer score is likewise
capped at 10 (and non-negative by type). -/
theorem C6_relevance_score_bounds (country : String) (sectors : List String)
    (text : String) (f : Feed) :
    0 ≤ ImprovedDonorRSSAggregator.calculate_relevance country sectors text f ∧
    ImprovedDonorRSSAggregator.calculate_relevance country sectors text f ≤ 10 ∧
    DonorRSSAggregator.calculate_relevance country sectors text ≤ 10 := by
  refine ⟨?_, ?_, ?_⟩
  · simp only [ImprovedDonorRSSAggregator.calculate_relevance]
    refine minQ_nonneg (round1_nonneg ?_) (by norm_num)
    refine add_nonneg (add_nonneg (add_nonneg (add_nonneg ?_ ?_) ?_) ?_) ?_
    · split
      · norm_num
      · split
        · norm_num
        · split <;> norm_num
    · split
      · norm_num
      · split
        · norm_num
        · split <;> norm_num
    · exact minQ_nonneg (by positivity) (by norm_num)
    · exact priority_bonus_nonneg _
    · split <;> norm_num
  · simp only [ImprovedDonorRSSAggregator.calculate_relevance]
    exact minQ_le_right _ _
  · simp only [DonorRSSAggregator.calculate_relevance]
    exact natCap_le_ten _

/-- C5.  A failure confined to one source never escapes its `parse_feed`
call: a raised fetch returns the state unchanged with count 0, and a whole
scan over any source list equals the scan over just its non-raising sources,
so the output contains exactly the qualifying entries of the non-failing
sources. -/
theorem C5_source_failure_isolation (st : ImprovedDonorRSSAggregator.Agg)
    (feeds : List Feed) (nm ty : String) (pr : Option String) (kws : List String) :
    ImprovedDonorRSSAggregator.parse_feed st ⟨nm, ty, pr, kws, .raised⟩ = (st, 0) ∧
    ImprovedDonorRSSAggregator.scan_all_feeds st feeds =
      ImprovedDonorRSSAggregator.scan_all_feeds st
        (feeds.filter fun f => !f.outcome.isRaised) := by
  refine ⟨rfl, ?_⟩
  simp only [ImprovedDonorRSSAggregator.scan_all_feeds]
  rw [scan_list_filter_raised]
  congr 1
  simp only [List.filter_append, List.filter_filter]
  have hc : ∀ p : String,
      (fun a : Feed => !a.outcome.isRaised && decide (a.priority = some p)) =
        (fun a : Feed => decide (a.priority = some p) && !a.outcome.isRaised) :=
    fun p => funext fun a => Bool.and_comm _ _
  rw [hc, hc, hc]

/-- C1.  The funding-language gate: if an entry's combined lowercase
title-plus-summary text contains none of the variant's funding keywords, the
entry is never appended, whatever its geographic, sector, orphanage-keyword
or score signals — in both aggregator variants. -/
theorem C1_funding_language_gate (st : ImprovedDonorRSSAggregator.Agg)
    (st1 : DonorRSSAggregator.Agg) (f : Feed) (e : Entry)
    (h : (ImprovedDonorRSSAggregator.funding_keywords.any
            fun kw => isSub kw (entryFullText e)) = false)
    (h1 : (DonorRSSAggregator.funding_keywords.any
            fun kw => isSub kw (entryFullText e)) = false) :
    ImprovedDonorRSSAggregator.process_entry st f e = (st, false) ∧
    DonorRSSAggregator.process_entry st1 f e = (st1, false) := by
  simp only [entryFullText] at h h1
  constructor
  · simp only [ImprovedDonorRSSAggregator.process_entry]
    split
    · rfl
    · simp [h]
  · simp only [DonorRSSAggregator.process_entry]
    split
    · rfl
    · simp [h1]

/-- C1 witness: the spec's own no-funding-language example entry is dropped
by both variants. -/
theorem C1_funding_language_gate_witness :
    ImprovedDonorRSSAggregator.process_entry scenSt scenFeed entryNoFunding =
      (scenSt, false) ∧
    DonorRSSAggregator.process_entry scenStV1 scenFeed entryNoFunding =
      (scenStV1, false) :=
  C1_funding_language_gate scenSt scenStV1 scenFeed entryNoFunding
    (by decide) (by decide)

/-- C4 counterexample: a feed whose parse reports a syntax error (`bozo`)
but still carries a readable, qualifying entry contributes zero records —
the very same entry is included once the error flag is absent, so the
partial-salvage policy claimed by the spec does not hold. -/
theorem C4_partial_parse_counterexample :
    ImprovedDonorRSSAggregator.parse_feed scenSt feedBBozo = (scenSt, 0) ∧
    ((ImprovedDonorRSSAggregator.parse_feed scenSt feedB).1.opportunities.map
        ImprovedDonorRSSAggregator.Opp.url) = ["b"] := by
  exact ⟨rfl, by decide⟩

/-- C4 amended: in both variants, any feed with the parse-error flag set
contributes zero entries and leaves the state untouched, regardless of how
many readable entries it contains. -/
theorem C4_partial_parse_amended (st : ImprovedDonorRSSAggregator.Agg)
    (st1 : DonorRSSAggregator.Agg) (nm ty : String) (pr : Option String)
    (kws : List String) (es : List Entry) :
    ImprovedDonorRSSAggregator.parse_feed st ⟨nm, ty, pr, kws, .parsed true es⟩ =
      (st, 0) ∧
    DonorRSSAggregator.parse_feed st1 ⟨nm, ty, pr, kws, .parsed true es⟩ =
      (st1, 0) :=
  ⟨rfl, rfl⟩

/-- C7 counterexample: on the spec's concrete scenario entry the extracted
deadline is `none` — no pattern of `extract_deadline` covers the phrasing
"Apply by 12/31/2025" — and the relevance score is `3.5`, below the claimed
bound 4 (geography 2 + sector 0.5 + priority 1). -/
theorem C7_concrete_scenario_counterexample :
    ((ImprovedDonorRSSAggregator.parse_feed scenSt scenFeed).1.opportunities.map
        ImprovedDonorRSSAggregator.Opp.deadline) ≠ [some "12/31/2025"] ∧
    ((ImprovedDonorRSSAggregator.parse_feed scenSt scenFeed).1.opportunities.map
        ImprovedDonorRSSAggregator.Opp.relevance_score) = [7 / 2] ∧
    ¬ ((4 : ℚ) ≤ 7 / 2) :=
  ⟨by decide, by with_unfolding_all rfl, by norm_num⟩

/-- C7 amended: the scenario entry is included (one record, carrying its
URL), its sectors are exactly `["education"]`, its amount matches the
`$50,000` pattern as `"up to $50,000"`, but its deadline is `none` and its
relevance score is exactly `3.5`. -/
theorem C7_concrete_scenario_amended :
    (ImprovedDonorRSSAggregator.parse_feed scenSt scenFeed).2 = 1 ∧
    ((ImprovedDonorRSSAggregator.parse_feed scenSt scenFeed).1.opportunities.map
        ImprovedDonorRSSAggregator.Opp.url) = ["https://example.org/tz-edu-grant"] ∧
    ((ImprovedDonorRSSAggregator.parse_feed scenSt scenFeed).1.opportunities.map
        ImprovedDonorRSSAggregator.Opp.deadline) = [none] ∧
    ((ImprovedDonorRSSAggregator.parse_feed scenSt scenFeed).1.opportunities.map
        ImprovedDonorRSSAggregator.Opp.amount) = [some "up to $50,000"] ∧
    ((ImprovedDonorRSSAggregator.parse_feed scenSt scenFeed).1.opportunities.map
        ImprovedDonorRSSAggregator.Opp.sectors) = [["education"]] ∧
    ((ImprovedDonorRSSAggregator.parse_feed scenSt scenFeed).1.opportunities.map
        ImprovedDonorRSSAggregator.Opp.relevance_score) = [7 / 2] :=
  ⟨by decide, by decide, by decide, by decide, by decide, by with_unfolding_all rfl⟩

/-- Behaviour of the `classify_sectors` shape shared by both variants, for an
arbitrary keyword table not containing the fallback tag itself. -/
theorem classify_table_spec (table : List (String × List String)) (text : String)
    (hgen : "general" ∉ table.map Prod.fst) :
    (if ((table.filter fun p => p.2.any fun kw => isSub kw text).map Prod.fst).isEmpty = true
        then ["general"]
        else (table.filter fun p => p.2.any fun kw => isSub kw text).map Prod.fst) ≠ [] ∧
    ((table.all fun p => p.2.all fun kw => !isSub kw text) = true →
      (if ((table.filter fun p => p.2.any fun kw => isSub kw text).map Prod.fst).isEmpty = true
          then ["general"]
          else (table.filter fun p => p.2.any fun kw => isSub kw text).map Prod.fst) = ["general"]) ∧
    (∀ p ∈ table, ∀ kw ∈ p.2, isSub kw text = true →
      p.1 ∈ (if ((table.filter fun p => p.2.any fun kw => isSub kw text).map Prod.fst).isEmpty = true
          then ["general"]
          else (table.filter fun p => p.2.any fun kw => isSub kw text).map Prod.fst) ∧
      "general" ∉ (if ((table.filter fun p => p.2.any fun kw => isSub kw text).map Prod.fst).isEmpty = true
          then ["general"]
          else (table.filter fun p => p.2.any fun kw => isSub kw text).map Prod.fst)) := by
  refine ⟨?_, ?_, ?_⟩
  · split
    · simp
    · next he =>
      intro hnil
      exact he (by rw [hnil]; rfl)
  · intro hall
    have hfil : (table.filter fun p => p.2.any fun kw => isSub kw text) = [] := by
      rw [List.filter_eq_nil_iff]
      intro p hp hcon
      rcases List.any_eq_true.mp hcon with ⟨kw, hkw, hsubkw⟩
      have hne := List.all_eq_true.mp (List.all_eq_true.mp hall p hp) kw hkw
      rw [hsubkw] at hne
      exact absurd hne (by decide)
    rw [hfil]
    rfl
  · intro p hp kw hkw hsub
    have hpred : (p.2.any fun kw => isSub kw text) = true :=
      List.any_eq_true.mpr ⟨kw, hkw, hsub⟩
    have hpf : p ∈ table.filter fun p => p.2.any fun kw => isSub kw text :=
      List.mem_filter.mpr ⟨hp, hpred⟩
    have hmem : p.1 ∈ (table.filter fun p => p.2.any fun kw => isSub kw text).map Prod.fst :=
      List.mem_map_of_mem _ hpf
    have hne : ((table.filter fun p => p.2.any fun kw => isSub kw text).map Prod.fst).isEmpty ≠ true := by
      intro he
      rw [List.isEmpty_eq_true] at he
      rw [he] at hmem
      exact absurd hmem (List.not_mem_nil _)
    rw [if_neg hne]
    refine ⟨hmem, fun hgenmem => hgen ?_⟩
    rcases List.mem_map.mp hgenmem with ⟨q, hq, hq1⟩
    exact hq1 ▸ List.mem_map_of_mem _ (List.mem_filter.mp hq).1

/-- C8.  In both variants `classify_sectors` always returns a non-empty tag
list; when no keyword of any configured sector occurs in the text it returns
exactly `["general"]`; and as soon as some sector's keyword occurs as a
substring, that sector is in the result and `"general"` is not. -/
theorem C8_sector_classification (text : String) :
    (ImprovedDonorRSSAggregator.classify_sectors text ≠ [] ∧
     ((ImprovedDonorRSSAggregator.sector_keywords.all fun p => p.2.all fun kw => !isSub kw text) = true →
        ImprovedDonorRSSAggregator.classify_sectors text = ["general"]) ∧
     (∀ p ∈ ImprovedDonorRSSAggregator.sector_keywords, ∀ kw ∈ p.2, isSub kw text = true →
        p.1 ∈ ImprovedDonorRSSAggregator.classify_sectors text ∧
        "general" ∉ ImprovedDonorRSSAggregator.classify_sectors text)) ∧
    (DonorRSSAggregator.classify_sectors text ≠ [] ∧
     ((DonorRSSAggregator.sector_keywords.all fun p => p.2.all fun kw => !isSub kw text) = true →
        DonorRSSAggregator.classify_sectors text = ["general"]) ∧
     (∀ p ∈ DonorRSSAggregator.sector_keywords, ∀ kw ∈ p.2, isSub kw text = true →
        p.1 ∈ DonorRSSAggregator.classify_sectors text ∧
        "general" ∉ DonorRSSAggregator.classify_sectors text)) := by
  constructor
  · exact classify_table_spec ImprovedDonorRSSAggregator.sector_keywords text (by decide)
  · exact classify_table_spec DonorRSSAggregator.sector_keywords text (by decide)

/-- C8 witness: on a text matching no configured sector keyword, both
variants fall back to exactly `["general"]`. -/
theorem C8_sector_classification_witness :
    ImprovedDonorRSSAggregator.classify_sectors "zzz" = ["general"] ∧
    DonorRSSAggregator.classify_sectors "zzz" = ["general"] :=
  ⟨(C8_sector_classification "zzz").1.2.1 (by decide),
   (C8_sector_classification "zzz").2.2.1 (by decide)⟩

open ImprovedDonorRSSAggregator in
/-- C9.  In a non-show-all run of either aggregator variant the produced
Opportunity Records have pairwise distinct URLs: an included URL goes into
the in-memory seen set at once, and every later entry carrying it — in the
same feed or any later one — is skipped. -/
theorem C9_distinct_urls_per_scan (persisted : List String) (now country : String)
    (sectorsIn : List String) (feeds : List Feed) :
    ((runScan false persisted now country sectorsIn feeds).opportunities.map
        Opp.url).Nodup ∧
    ((DonorRSSAggregator.runScan false persisted now country sectorsIn
          feeds).opportunities.map DonorRSSAggregator.Opp.url).Nodup := by
  constructor
  · have hstep : ∀ (f : Feed) (st : Agg) (e : Entry),
        (st.showAll = false ∧ (st.opportunities.map Opp.url).Nodup ∧
          (∀ u ∈ st.opportunities.map Opp.url, u ∈ st.seenUrls)) →
        ((process_entry st f e).1.showAll = false ∧
          ((process_entry st f e).1.opportunities.map Opp.url).Nodup ∧
          (∀ u ∈ (process_entry st f e).1.opportunities.map Opp.url,
            u ∈ (process_entry st f e).1.seenUrls)) := by
      rintro f st e ⟨hshow, hnd, hsub⟩
      rcases process_entry_shape st f e with heq | ⟨hnotseen, o, hurl, heq⟩
      · rw [heq]
        exact ⟨hshow, hnd, hsub⟩
      · rw [heq]
        have hnotin : o.url ∉ st.opportunities.map Opp.url := by
          intro hmem
          have hc := hsub _ hmem
          rw [hurl] at hc
          exact hnotseen hshow hc
        refine ⟨hshow, ?_, ?_⟩
        · rw [List.map_append]
          refine List.nodup_append.mpr ⟨hnd, List.nodup_singleton _, ?_⟩
          intro a ha hb
          rw [List.mem_singleton.mp hb] at ha
          exact hnotin ha
        · rw [List.map_append]
          intro u hu
          rcases List.mem_append.mp hu with hl | hr
          · exact mem_addUrl_of_mem (hsub _ hl)
          · rw [List.mem_singleton.mp hr, hurl]
            exact self_mem_addUrl _ _
    simp only [runScan]
    refine (scan_all_feeds_inv
      (fun st => st.showAll = false ∧ (st.opportunities.map Opp.url).Nodup ∧
        (∀ u ∈ st.opportunities.map Opp.url, u ∈ st.seenUrls))
      hstep feeds _ ?_).2.1
    exact ⟨rfl, List.nodup_nil, by simp⟩
  · have hstep : ∀ (f : Feed) (st : DonorRSSAggregator.Agg) (e : Entry),
        (st.showAll = false ∧
          (st.opportunities.map DonorRSSAggregator.Opp.url).Nodup ∧
          (∀ u ∈ st.opportunities.map DonorRSSAggregator.Opp.url, u ∈ st.seenUrls)) →
        ((DonorRSSAggregator.process_entry st f e).1.showAll = false ∧
          ((DonorRSSAggregator.process_entry st f e).1.opportunities.map
            DonorRSSAggregator.Opp.url).Nodup ∧
          (∀ u ∈ (DonorRSSAggregator.process_entry st f e).1.opportunities.map
              DonorRSSAggregator.Opp.url,
            u ∈ (DonorRSSAggregator.process_entry st f e).1.seenUrls)) := by
      rintro f st e ⟨hshow, hnd, hsub⟩
      rcases process_entry_shape_v1 st f e with heq | ⟨hnotseen, o, hurl, heq⟩
      · rw [heq]
        exact ⟨hshow, hnd, hsub⟩
      · rw [heq]
        have hnotin : o.url ∉ st.opportunities.map DonorRSSAggregator.Opp.url := by
          intro hmem
          have hc := hsub _ hmem
          rw [hurl] at hc
          exact hnotseen hshow hc
        refine ⟨hshow, ?_, ?_⟩
        · rw [List.map_append]
          refine List.nodup_append.mpr ⟨hnd, List.nodup_singleton _, ?_⟩
          intro a ha hb
          rw [List.mem_singleton.mp hb] at ha
          exact hnotin ha
        · rw [List.map_append]
          intro u hu
          rcases List.mem_append.mp hu with hl | hr
          · exact mem_addUrl_of_mem (hsub _ hl)
          · rw [List.mem_singleton.mp hr, hurl]
            exact self_mem_addUrl _ _
    simp only [DonorRSSAggregator.runScan]
    refine (scan_all_feeds_inv_v1
      (fun st => st.showAll = false ∧
        (st.opportunities.map DonorRSSAggregator.Opp.url).Nodup ∧
        (∀ u ∈ st.opportunities.map DonorRSSAggregator.Opp.url, u ∈ st.seenUrls))
      hstep feeds _ ?_).2.1
    exact ⟨rfl, List.nodup_nil, by simp⟩

/-- C2 counterexample: a show-all run records the URLs it encounters
(`"b"` ends up in the store) but drops the previously persisted `"a"`,
because show-all mode never loads the persisted store and the final save
overwrites it — so the store does not end the run as a superset of its prior
contents. -/
theorem C2_show_all_counterexample :
    "b" ∈ (ImprovedDonorRSSAggregator.runScan true ["a"] "t" "Tanzania"
      ["education"] [feedB]).seenUrls ∧
    "a" ∉ (ImprovedDonorRSSAggregator.runScan true ["a"] "t" "Tanzania"
      ["education"] [feedB]).seenUrls :=
  ⟨by decide, by decide⟩

open ImprovedDonorRSSAggregator in
/-- C2 amended: with `show_all=true` the membership check is bypassed in the
strongest sense — the whole run is independent of the persisted store (which
is never loaded) — and `record` still executes for every included entry, so
the run ends with the store holding exactly the URLs of this run's records
(first occurrences), not their union with the prior store. -/
theorem C2_show_all_amended (persisted other : List String) (now country : String)
    (sectorsIn : List String) (feeds : List Feed) :
    runScan true persisted now country sectorsIn feeds =
      runScan true other now country sectorsIn feeds ∧
    (runScan true persisted now country sectorsIn feeds).seenUrls =
      firstDedup ((runScan true persisted now country sectorsIn feeds).opportunities.map
        Opp.url) := by
  constructor
  · rfl
  · have hstep : ∀ (f : Feed) (st : Agg) (e : Entry),
        st.seenUrls = firstDedup (st.opportunities.map Opp.url) →
        (process_entry st f e).1.seenUrls =
          firstDedup ((process_entry st f e).1.opportunities.map Opp.url) := by
      intro f st e h
      rcases process_entry_shape st f e with heq | ⟨_, o, hurl, heq⟩
      · rw [heq]; exact h
      · rw [heq]
        simp only [List.map_append, List.map_cons, List.map_nil, firstDedup_append]
        rw [← h, hurl]
    simp only [runScan]
    refine scan_all_feeds_inv
      (fun st => st.seenUrls = firstDedup (st.opportunities.map Opp.url)) hstep feeds _ ?_
    rfl

open ImprovedDonorRSSAggregator in
/-- C10.  An entry with no link is processed with `url = ""` rather than
rejected: a qualifying link-less entry yields a record whose `url` is the
empty string, and `""` is inserted into the seen store; afterwards, in
non-show-all mode, every further link-less entry is skipped, so at most one
such record is ever emitted and the output's `url` is not guaranteed
non-empty. -/
theorem C10_missing_link_empty_url :
    ((process_entry scenSt scenFeed entryNoLink).2 = true ∧
     (process_entry scenSt scenFeed entryNoLink).1.opportunities.map Opp.url = [""] ∧
     (process_entry scenSt scenFeed entryNoLink).1.seenUrls = [""]) ∧
    (∀ (st : Agg) (f : Feed) (e : Entry), st.showAll = false → e.link = none →
      "" ∈ st.seenUrls → process_entry st f e = (st, false)) := by
  constructor
  · exact ⟨by decide, by decide, by decide⟩
  · intro st f e hshow hlink hmem
    simp only [process_entry]
    rw [if_pos]
    exact ⟨hshow, by rw [hlink]; exact hmem⟩

/-- C10 witness: with `""` already in the seen store, a link-less entry is
skipped in non-show-all mode. -/
theorem C10_missing_link_empty_url_witness :
    ImprovedDonorRSSAggregator.process_entry stSeenEmpty scenFeed entryNoLink =
      (stSeenEmpty, false) :=
  C10_missing_link_empty_url.2 stSeenEmpty scenFeed entryNoLink rfl rfl (by decide)
